import Mathlib

/-!
Verification of the smart-vocabulary trainer's core algorithms: the
spaced-repetition scheduler (`js/spaced-repetition.js`), the exercise-type
selector and learning-session state machine (`js/learning-session.js`), and
the export/import pipeline (`js/import-export.js`).

Modelling conventions:
* JS numbers holding ease factors, fractions and rounded intervals are
  modelled as `ℚ` / `ℤ` with `Math.round x = ⌊x + 1/2⌋` (JS rounds half
  toward positive infinity).
* Timestamps (`Date` values, ISO strings) are modelled as `ℤ` milliseconds;
  `date.setDate(date.getDate() + interval)` is modelled as adding
  `interval` whole days in milliseconds.
* JS strings are kept as `String` for enum-like tags and as `List Char`
  where character-level processing matters (typing accuracy).
* Nullable / possibly-absent object properties are modelled as `Option`;
  a property that a constructor never writes is `none` (resp. `[]`).
-/

namespace SmartVocab

/-- JS `Math.round`: round half toward positive infinity. -/
def jround (q : ℚ) : ℤ := ⌊q + 1/2⌋

/-- Result object of `SpacedRepetition.calculateNextReview`
    (js/spaced-repetition.js lines 193-198). -/
structure SRResult where
  nextReview : ℤ
  interval : ℤ
  easeFactor : ℚ
  repetition : ℕ
deriving DecidableEq

/-- Base interval in days computed from `repetition` before the difficulty
    switch (js/spaced-repetition.js lines 152-158). -/
def baseInterval (repetition : ℕ) (easeFactor : ℚ) : ℤ :=
  if repetition = 0 then 1
  else if repetition = 1 then 6
  else jround ((repetition : ℚ) * easeFactor)

/-- `SpacedRepetition.calculateNextReview(difficulty, repetition, easeFactor)`
    from js/spaced-repetition.js lines 149-199.  The `switch(difficulty)`
    has the four enumerated cases and no default: an unrecognized difficulty
    leaves `easeFactor` and `interval` untouched.  `now` stands for the
    `new Date()` taken inside the function; `nextReview` is `now` plus
    `interval` days. -/
def calculateNextReview (difficulty : String) (repetition : ℕ)
    (easeFactor : ℚ) (now : ℤ) : SRResult :=
  let interval : ℤ := baseInterval repetition easeFactor
  let adjusted : ℚ × ℤ :=
    if difficulty = "hard" then
      (max 1.3 (easeFactor - 0.15), 1)
    else if difficulty = "medium" then
      (min 3.5 (easeFactor + 0.05), jround ((interval : ℚ) * 0.9))
    else if difficulty = "easy" then
      (min 3.5 (easeFactor + 0.15), interval)
    else if difficulty = "perfect" then
      (min 3.5 (easeFactor + 0.25), jround ((interval : ℚ) * 1.2))
    else
      (easeFactor, interval)
  { nextReview := now + adjusted.2 * 86400000
    interval := adjusted.2
    easeFactor := adjusted.1
    repetition := repetition + 1 }

lemma calculateNextReview_hard (repetition : ℕ) (easeFactor : ℚ) (now : ℤ) :
    calculateNextReview "hard" repetition easeFactor now =
      { nextReview := now + 1 * 86400000, interval := 1
        easeFactor := max 1.3 (easeFactor - 0.15)
        repetition := repetition + 1 } := by
  simp [calculateNextReview]

lemma calculateNextReview_medium (repetition : ℕ) (easeFactor : ℚ) (now : ℤ) :
    calculateNextReview "medium" repetition easeFactor now =
      { nextReview := now + jround ((baseInterval repetition easeFactor : ℚ) * 0.9) * 86400000
        interval := jround ((baseInterval repetition easeFactor : ℚ) * 0.9)
        easeFactor := min 3.5 (easeFactor + 0.05)
        repetition := repetition + 1 } := by
  simp [calculateNextReview]

lemma calculateNextReview_easy (repetition : ℕ) (easeFactor : ℚ) (now : ℤ) :
    calculateNextReview "easy" repetition easeFactor now =
      { nextReview := now + baseInterval repetition easeFactor * 86400000
        interval := baseInterval repetition easeFactor
        easeFactor := min 3.5 (easeFactor + 0.15)
        repetition := repetition + 1 } := by
  simp [calculateNextReview]

lemma calculateNextReview_perfect (repetition : ℕ) (easeFactor : ℚ) (now : ℤ) :
    calculateNextReview "perfect" repetition easeFactor now =
      { nextReview := now + jround ((baseInterval repetition easeFactor : ℚ) * 1.2) * 86400000
        interval := jround ((baseInterval repetition easeFactor : ℚ) * 1.2)
        easeFactor := min 3.5 (easeFactor + 0.25)
        repetition := repetition + 1 } := by
  simp [calculateNextReview]

/-- Claim C1: for every `repetition ≥ 0` and every `easeFactor ∈ [1.3, 3.5]`,
`calculateNextReview "hard" repetition easeFactor` returns `interval = 1`
(reset regardless of the base interval) and an ease factor decreased by
`0.15`, floored at `1.3`. -/
theorem hard_answer_resets_interval (repetition : ℕ) (easeFactor : ℚ) (now : ℤ)
    (hlo : (1.3 : ℚ) ≤ easeFactor) (hhi : easeFactor ≤ 3.5) :
    (calculateNextReview "hard" repetition easeFactor now).interval = 1 ∧
    (calculateNextReview "hard" repetition easeFactor now).easeFactor =
      max 1.3 (easeFactor - 0.15) := by
  rw [calculateNextReview_hard]
  exact ⟨rfl, rfl⟩

/-- Witness for C1 at `repetition = 2`, `easeFactor = 2`. -/
theorem hard_answer_resets_interval_witness :
    (calculateNextReview "hard" 2 2 0).interval = 1 ∧
    (calculateNextReview "hard" 2 2 0).easeFactor = max 1.3 (2 - 0.15) :=
  hard_answer_resets_interval 2 2 0 (by norm_num) (by norm_num)

lemma jround_nonneg (q : ℚ) (h : 0 ≤ q) : 0 ≤ jround q := by
  unfold jround
  have : (0 : ℚ) ≤ q + 1/2 := by linarith
  exact Int.le_floor.mpr (by exact_mod_cast this)

lemma baseInterval_nonneg (repetition : ℕ) (easeFactor : ℚ)
    (h : 0 ≤ easeFactor) : 0 ≤ baseInterval repetition easeFactor := by
  unfold baseInterval
  split
  · norm_num
  · split
    · norm_num
    · exact jround_nonneg _ (by positivity)

/-- Claim C2: for the four enumerated difficulties, any `repetition` and any
initial `easeFactor ∈ [1.3, 3.5]`, the ease factor returned by
`calculateNextReview` stays in `[1.3, 3.5]` and the returned interval is
never negative. -/
theorem easeFactor_bounds_interval_nonneg (difficulty : String)
    (hd : difficulty = "hard" ∨ difficulty = "medium" ∨
          difficulty = "easy" ∨ difficulty = "perfect")
    (repetition : ℕ) (easeFactor : ℚ) (now : ℤ)
    (hlo : (1.3 : ℚ) ≤ easeFactor) (hhi : easeFactor ≤ 3.5) :
    (1.3 : ℚ) ≤ (calculateNextReview difficulty repetition easeFactor now).easeFactor ∧
    (calculateNextReview difficulty repetition easeFactor now).easeFactor ≤ 3.5 ∧
    0 ≤ (calculateNextReview difficulty repetition easeFactor now).interval := by
  have hbase : 0 ≤ baseInterval repetition easeFactor :=
    baseInterval_nonneg repetition easeFactor (by linarith)
  have hbaseq : (0 : ℚ) ≤ (baseInterval repetition easeFactor : ℚ) := by
    exact_mod_cast hbase
  rcases hd with h | h | h | h <;> subst h
  · rw [calculateNextReview_hard]
    refine ⟨le_max_left _ _, ?_, by norm_num⟩
    rw [max_le_iff]; constructor <;> linarith
  · rw [calculateNextReview_medium]
    refine ⟨?_, min_le_left _ _, jround_nonneg _ (by positivity)⟩
    rw [le_min_iff]; constructor <;> linarith
  · rw [calculateNextReview_easy]
    refine ⟨?_, min_le_left _ _, hbase⟩
    rw [le_min_iff]; constructor <;> linarith
  · rw [calculateNextReview_perfect]
    refine ⟨?_, min_le_left _ _, jround_nonneg _ (by positivity)⟩
    rw [le_min_iff]; constructor <;> linarith

/-- Witness for C2 at `difficulty = "perfect"`, `repetition = 3`,
`easeFactor = 3.4`. -/
theorem easeFactor_bounds_interval_nonneg_witness :
    (1.3 : ℚ) ≤ (calculateNextReview "perfect" 3 3.4 0).easeFactor ∧
    (calculateNextReview "perfect" 3 3.4 0).easeFactor ≤ 3.5 ∧
    0 ≤ (calculateNextReview "perfect" 3 3.4 0).interval :=
  easeFactor_bounds_interval_nonneg "perfect" (by tauto) 3 3.4 0
    (by norm_num) (by norm_num)

/-- Claim C3 counterexample: `calculateNextReview` called with the difficulty
`"unknown"` (outside the four enumerated values) is not rejected: it returns a
normally-shaped result whose interval is the unadjusted base interval
(`round(2 * 2) = 4`) and whose ease factor is silently left unchanged, so the
function does not fail fast at the boundary. -/
theorem invalid_difficulty_not_rejected :
    calculateNextReview "unknown" 2 2 0 =
      { nextReview := 4 * 86400000, interval := 4, easeFactor := 2,
        repetition := 3 } := by
  have hb : baseInterval 2 2 = 4 := by
    have : ((2 : ℕ) : ℚ) * 2 + 1/2 = 9/2 := by norm_num
    simp [baseInterval, jround, this]
    norm_num [Int.floor_eq_iff]
  simp [calculateNextReview, hb]

/-- Claim C3 (amended): for any difficulty outside the four enumerated values,
`calculateNextReview` silently ignores the difficulty: it returns the base
interval unchanged, the ease factor unchanged, and `repetition + 1` —
there is no fail-fast rejection (the `switch` has no default case). -/
theorem invalid_difficulty_passthrough (difficulty : String)
    (h1 : difficulty ≠ "hard") (h2 : difficulty ≠ "medium")
    (h3 : difficulty ≠ "easy") (h4 : difficulty ≠ "perfect")
    (repetition : ℕ) (easeFactor : ℚ) (now : ℤ) :
    calculateNextReview difficulty repetition easeFactor now =
      { nextReview := now + baseInterval repetition easeFactor * 86400000
        interval := baseInterval repetition easeFactor
        easeFactor := easeFactor
        repetition := repetition + 1 } := by
  simp [calculateNextReview, h1, h2, h3, h4]

/-- Witness for the amended C3 at `difficulty = "unknown"`. -/
theorem invalid_difficulty_passthrough_witness :
    calculateNextReview "unknown" 5 2 7 =
      { nextReview := 7 + baseInterval 5 2 * 86400000
        interval := baseInterval 5 2
        easeFactor := 2
        repetition := 6 } :=
  invalid_difficulty_passthrough "unknown" (by decide) (by decide) (by decide)
    (by decide) 5 2 7

/-- A review record pushed onto `word.reviewHistory` by `markDifficulty`
    (js/learning-session.js lines 243-247): `{date, difficulty, exerciseType}`. -/
structure ReviewRecord where
  date : ℤ
  difficulty : String
  exerciseType : String
deriving DecidableEq

/-- A vocabulary word.  Content fields and defaults as written by `addWord`
    (js/data-manager.js), scheduling fields owned by the scheduler, plus the
    session-local annotations (`sessionExerciseTypes`, `currentExerciseType`)
    that learning-session.js stores directly on the word.  Properties that may
    be absent or null on the JS object are `Option` (absent lists are `[]`). -/
structure Word where
  id : String
  english : String
  russian : String
  definition : String
  phonetic : String
  examples : List String
  synonyms : List String
  createdAt : Option String
  addedDate : Option String
  repetition : ℕ
  easeFactor : ℚ
  nextReview : Option ℤ
  reviewHistory : List ReviewRecord
  lastExerciseType : Option String
  lastExerciseDate : Option ℤ
  sessionExerciseTypes : List String
  currentExerciseType : Option String
deriving DecidableEq

/-- The word object created by `addWord` (js/data-manager.js lines 422-437):
    `repetition: 0, easeFactor: 1.3, nextReview: null, reviewHistory: [],
    lastExerciseType: null, lastExerciseDate: null`; `addedDate`,
    `sessionExerciseTypes` and `currentExerciseType` are not set. -/
def newWord (id english russian definition phonetic : String)
    (examples synonyms : List String) (createdAt : String) : Word :=
  { id := id, english := english, russian := russian
    definition := definition, phonetic := phonetic
    examples := examples, synonyms := synonyms
    createdAt := some createdAt, addedDate := none
    repetition := 0, easeFactor := 1.3, nextReview := none
    reviewHistory := [], lastExerciseType := none, lastExerciseDate := none
    sessionExerciseTypes := [], currentExerciseType := none }

/-- `SpacedRepetition.getWordsForReview` (js/spaced-repetition.js lines
    201-223).  The source reads the vocabulary from the global
    `window.DataManager.vocabulary` and the time from `new Date()`; both are
    passed explicitly here.  A word is kept when `!word.nextReview` (null)
    or its review date is `≤ now`. -/
def getWordsForReview (vocabulary : List Word) (now : ℤ) : List Word :=
  vocabulary.filter fun word =>
    match word.nextReview with
    | none => true
    | some reviewDate => decide (reviewDate ≤ now)

/-- `isEligibleForReverseTranslation(word)` (js/learning-session.js lines
    299-315): never for `repetition == 0`, never when the most recent review
    was rated `hard`; otherwise `repetition > 0 || reviewHistory.length > 0`. -/
def isEligibleForReverseTranslation (word : Word) : Bool :=
  if word.repetition = 0 then false
  else if (match word.reviewHistory.getLast? with
           | some lastReview => lastReview.difficulty == "hard"
           | none => false) then false
  else decide (0 < word.repetition) || decide (word.reviewHistory ≠ [])

/-- `canShowReverseExercise(word)` (js/learning-session.js lines 317-328):
    allowed when there is no `lastExerciseDate`, or the last exercise was not
    `reverse`, or at least 10 minutes (600000 ms) have passed.  `now` stands
    for the `new Date()` taken inside the function. -/
def canShowReverseExercise (word : Word) (now : ℤ) : Bool :=
  match word.lastExerciseDate with
  | none => true
  | some lastExerciseDate =>
      decide (word.lastExerciseType ≠ some "reverse") ||
      decide (now - lastExerciseDate ≥ 10 * 60 * 1000)

/-- `determineExerciseType(word)` (js/learning-session.js lines 330-364).
    The source reads the session queue from `AppState.learningSession`;
    it is passed here as `sessionWords`. -/
def determineExerciseType (word : Word) (sessionWords : List Word)
    (now : ℤ) : String :=
  if ¬ isEligibleForReverseTranslation word then "regular"
  else if ¬ canShowReverseExercise word now then "regular"
  else if sessionWords.length = 1 then
    (if word.lastExerciseType = some "reverse" then "regular" else "reverse")
  else if ¬ word.sessionExerciseTypes.contains "reverse" then "reverse"
  else if ¬ word.sessionExerciseTypes.contains "regular" then "regular"
  else "regular"

/-- The word mutation performed by `showLearningCard` (js/learning-session.js
    lines 158-162): the exercise type is determined and stamped on the word at
    display time, together with the display timestamp. -/
def showCardWord (word : Word) (sessionWords : List Word) (now : ℤ) : Word :=
  let exerciseType := determineExerciseType word sessionWords now
  { word with
    currentExerciseType := some exerciseType
    lastExerciseDate := some now
    lastExerciseType := some exerciseType }

/-- The word mutation performed by `markDifficulty(difficulty)`
    (js/learning-session.js lines 232-257): merge the scheduler result into
    the word (`Object.assign`), push a review record, and add the exercise
    type to `sessionExerciseTypes` if missing.  `now` stands for the
    `new Date()` calls made during the update. -/
def markDifficultyWord (word : Word) (difficulty : String) (now : ℤ) : Word :=
  let reviewData := calculateNextReview difficulty word.repetition word.easeFactor now
  let exerciseType := word.currentExerciseType.getD "regular"
  { word with
    nextReview := some reviewData.nextReview
    easeFactor := reviewData.easeFactor
    repetition := reviewData.repetition
    reviewHistory := word.reviewHistory ++
      [{ date := now, difficulty := difficulty, exerciseType := exerciseType }]
    sessionExerciseTypes :=
      if word.sessionExerciseTypes.contains exerciseType then
        word.sessionExerciseTypes
      else word.sessionExerciseTypes ++ [exerciseType] }

/-- One step of the learning-session state machine, as it affects the current
    word: either the card is displayed (`showLearningCard`) or the user's
    difficulty judgment is recorded (`markDifficulty`). -/
inductive SessionOp where
  | display (sessionWords : List Word) (now : ℤ)
  | answer (difficulty : String) (now : ℤ)

def applyOp (word : Word) : SessionOp → Word
  | SessionOp.display sessionWords now => showCardWord word sessionWords now
  | SessionOp.answer difficulty now => markDifficultyWord word difficulty now

def runOps (word : Word) : List SessionOp → Word
  | [] => word
  | op :: rest => runOps (applyOp word op) rest

/-- Number of completed `markDifficulty` calls in a list of session steps. -/
def countAnswers : List SessionOp → ℕ
  | [] => 0
  | SessionOp.display _ _ :: rest => countAnswers rest
  | SessionOp.answer _ _ :: rest => countAnswers rest + 1

/-- Claim C7: `getWordsForReview` returns exactly the words whose `nextReview`
is null or whose `nextReview` timestamp is at most `now`, and the result is a
stable filter of the input (a sublist, hence the input's relative order with
no sorting). -/
theorem getWordsForReview_exactly_due (vocabulary : List Word) (now : ℤ) :
    (∀ word : Word,
      word ∈ getWordsForReview vocabulary now ↔
        word ∈ vocabulary ∧
          (word.nextReview = none ∨
           ∃ reviewDate, word.nextReview = some reviewDate ∧ reviewDate ≤ now)) ∧
    (getWordsForReview vocabulary now).Sublist vocabulary := by
  constructor
  · intro word
    rw [getWordsForReview, List.mem_filter]
    constructor
    · rintro ⟨hmem, hdue⟩
      refine ⟨hmem, ?_⟩
      cases hnr : word.nextReview with
      | none => exact Or.inl rfl
      | some reviewDate =>
          right
          refine ⟨reviewDate, rfl, ?_⟩
          rw [hnr] at hdue
          exact of_decide_eq_true hdue
    · rintro ⟨hmem, hdue⟩
      refine ⟨hmem, ?_⟩
      rcases hdue with hnone | ⟨reviewDate, hsome, hle⟩
      · rw [hnone]
      · rw [hsome]
        exact decide_eq_true hle
  · exact List.filter_sublist _

lemma runOps_counts (ops : List SessionOp) :
    ∀ word : Word,
      (runOps word ops).repetition = word.repetition + countAnswers ops ∧
      (runOps word ops).reviewHistory.length =
        word.reviewHistory.length + countAnswers ops := by
  induction ops with
  | nil => intro word; simp [runOps, countAnswers]
  | cons op rest ih =>
      intro word
      cases op with
      | display sessionWords now =>
          have h := ih (showCardWord word sessionWords now)
          simpa [runOps, applyOp, countAnswers, showCardWord] using h
      | answer difficulty now =>
          have h := ih (markDifficultyWord word difficulty now)
          simp only [runOps, applyOp, countAnswers]
          rw [h.1, h.2]
          simp [markDifficultyWord, calculateNextReview]
          omega

/-- Claim C6: starting from a freshly added word (`repetition = 0`,
`reviewHistory = []`), after any sequence of session steps containing `N`
completed `markDifficulty` calls, `repetition = N = reviewHistory.length`;
moreover every single `markDifficulty` increments `repetition` by exactly one
and appends exactly one review record, so the invariant
`repetition == reviewHistory.length` is preserved by every operation. -/
theorem repetition_equals_history_length
    (id english russian definition phonetic : String)
    (examples synonyms : List String) (createdAt : String)
    (ops : List SessionOp) :
    (runOps (newWord id english russian definition phonetic examples synonyms
        createdAt) ops).repetition = countAnswers ops ∧
    (runOps (newWord id english russian definition phonetic examples synonyms
        createdAt) ops).reviewHistory.length = countAnswers ops ∧
    (∀ (word : Word) (difficulty : String) (now : ℤ),
      (markDifficultyWord word difficulty now).repetition =
        word.repetition + 1 ∧
      (markDifficultyWord word difficulty now).reviewHistory.length =
        word.reviewHistory.length + 1) := by
  have h := runOps_counts ops
    (newWord id english russian definition phonetic examples synonyms createdAt)
  refine ⟨?_, ?_, ?_⟩
  · simpa [newWord] using h.1
  · simpa [newWord] using h.2
  · intro word difficulty now
    constructor
    · simp [markDifficultyWord, calculateNextReview]
    · simp [markDifficultyWord]

/-- Claim C5 counterexample: take a fresh word, display it (at time 0) and
answer `easy` (at time 5).  The last `reviewHistory` record has timestamp 5,
but `lastExerciseDate` still holds the display time 0: the denormalized cache
is stamped at display time, so it does not equal the last record's timestamp,
refuting the claimed at-all-times consistency. -/
theorem lastExercise_cache_not_history_consistent :
    (runOps (newWord "w1" "cat" "kot" "" "" [] [] "t0")
        [SessionOp.display [newWord "w1" "cat" "kot" "" "" [] [] "t0"] 0,
         SessionOp.answer "easy" 5]).reviewHistory.getLast? =
      some { date := 5, difficulty := "easy", exerciseType := "regular" } ∧
    (runOps (newWord "w1" "cat" "kot" "" "" [] [] "t0")
        [SessionOp.display [newWord "w1" "cat" "kot" "" "" [] [] "t0"] 0,
         SessionOp.answer "easy" 5]).lastExerciseDate = some 0 ∧
    some (0 : ℤ) ≠ some (5 : ℤ) := by
  refine ⟨rfl, rfl, by decide⟩

/-- Claim C5 (amended): `lastExerciseType` and `lastExerciseDate` are stamped
on the word at display time.  After a display-then-answer cycle the appended
review record's exercise type equals `lastExerciseType` (so the type component
is consistent with the last history entry), but `lastExerciseDate` holds the
display timestamp, which is at most — and in general different from — the
record's answer timestamp; between display and answer the two fields describe
the exercise currently on screen, not the last history entry. -/
theorem lastExercise_stamped_at_display_time (word : Word)
    (sessionWords : List Word) (difficulty : String)
    (displayTime answerTime : ℤ) (h : displayTime ≤ answerTime) :
    (showCardWord word sessionWords displayTime).lastExerciseType =
      some (determineExerciseType word sessionWords displayTime) ∧
    (showCardWord word sessionWords displayTime).lastExerciseDate =
      some displayTime ∧
    (markDifficultyWord (showCardWord word sessionWords displayTime)
        difficulty answerTime).reviewHistory.getLast? =
      some { date := answerTime, difficulty := difficulty
             exerciseType := determineExerciseType word sessionWords displayTime } ∧
    (markDifficultyWord (showCardWord word sessionWords displayTime)
        difficulty answerTime).lastExerciseType =
      some (determineExerciseType word sessionWords displayTime) ∧
    (markDifficultyWord (showCardWord word sessionWords displayTime)
        difficulty answerTime).lastExerciseDate = some displayTime ∧
    displayTime ≤ answerTime := by
  refine ⟨rfl, rfl, ?_, rfl, rfl, h⟩
  simp [markDifficultyWord, showCardWord]

/-- Witness for the amended C5. -/
theorem lastExercise_stamped_at_display_time_witness :
    (showCardWord (newWord "w1" "cat" "kot" "" "" [] [] "t0") [] 0).lastExerciseType =
      some (determineExerciseType (newWord "w1" "cat" "kot" "" "" [] [] "t0") [] 0) ∧
    (showCardWord (newWord "w1" "cat" "kot" "" "" [] [] "t0") [] 0).lastExerciseDate =
      some 0 ∧
    (markDifficultyWord (showCardWord (newWord "w1" "cat" "kot" "" "" [] [] "t0") [] 0)
        "easy" 5).reviewHistory.getLast? =
      some { date := 5, difficulty := "easy"
             exerciseType := determineExerciseType
               (newWord "w1" "cat" "kot" "" "" [] [] "t0") [] 0 } ∧
    (markDifficultyWord (showCardWord (newWord "w1" "cat" "kot" "" "" [] [] "t0") [] 0)
        "easy" 5).lastExerciseType =
      some (determineExerciseType (newWord "w1" "cat" "kot" "" "" [] [] "t0") [] 0) ∧
    (markDifficultyWord (showCardWord (newWord "w1" "cat" "kot" "" "" [] [] "t0") [] 0)
        "easy" 5).lastExerciseDate = some 0 ∧
    (0 : ℤ) ≤ 5 :=
  lastExercise_stamped_at_display_time
    (newWord "w1" "cat" "kot" "" "" [] [] "t0") [] "easy" 0 5 (by decide)

/-- Claim C8: `determineExerciseType` returns `regular` when the word is
ineligible or the reverse cooldown blocks it; with a single-word session queue
it flips relative to `lastExerciseType`; otherwise it returns `reverse` when
`reverse` has not yet been shown this session, else `regular` when `regular`
has not, else `regular` once both have been shown. -/
theorem determineExerciseType_decision (word : Word)
    (sessionWords : List Word) (now : ℤ) :
    ((isEligibleForReverseTranslation word = false ∨
      canShowReverseExercise word now = false) →
        determineExerciseType word sessionWords now = "regular") ∧
    (isEligibleForReverseTranslation word = true →
      canShowReverseExercise word now = true →
      sessionWords.length = 1 →
        determineExerciseType word sessionWords now =
          (if word.lastExerciseType = some "reverse" then "regular"
           else "reverse")) ∧
    (isEligibleForReverseTranslation word = true →
      canShowReverseExercise word now = true →
      sessionWords.length ≠ 1 →
      word.sessionExerciseTypes.contains "reverse" = false →
        determineExerciseType word sessionWords now = "reverse") ∧
    (isEligibleForReverseTranslation word = true →
      canShowReverseExercise word now = true →
      sessionWords.length ≠ 1 →
      word.sessionExerciseTypes.contains "reverse" = true →
      word.sessionExerciseTypes.contains "regular" = false →
        determineExerciseType word sessionWords now = "regular") ∧
    (isEligibleForReverseTranslation word = true →
      canShowReverseExercise word now = true →
      sessionWords.length ≠ 1 →
      word.sessionExerciseTypes.contains "reverse" = true →
      word.sessionExerciseTypes.contains "regular" = true →
        determineExerciseType word sessionWords now = "regular") := by
  refine ⟨?_, ?_, ?_, ?_, ?_⟩
  · rintro (h | h) <;> simp [determineExerciseType, h]
  · intro h1 h2 h3
    simp [determineExerciseType, h1, h2, h3]
  · intro h1 h2 h3 h4
    simp only [List.contains, List.elem_eq_mem, decide_eq_false_iff_not] at h4
    simp [determineExerciseType, h1, h2, h3, h4]
  · intro h1 h2 h3 h4 h5
    simp only [List.contains, List.elem_eq_mem, decide_eq_true_eq] at h4
    simp only [List.contains, List.elem_eq_mem, decide_eq_false_iff_not] at h5
    simp [determineExerciseType, h1, h2, h3, h4, h5]
  · intro h1 h2 h3 h4 h5
    simp only [List.contains, List.elem_eq_mem, decide_eq_true_eq] at h4 h5
    simp [determineExerciseType, h1, h2, h3, h4, h5]

/-- Witness for C8: a fresh word (`repetition = 0`) is ineligible, so the
selector returns `regular`. -/
theorem determineExerciseType_decision_witness :
    determineExerciseType (newWord "w1" "cat" "kot" "" "" [] [] "t0") [] 0 =
      "regular" :=
  (determineExerciseType_decision (newWord "w1" "cat" "kot" "" "" [] [] "t0")
      [] 0).1 (Or.inl (by decide))

/-- JS `\s`-class whitespace (ASCII range), as matched by `trim` and the
    `/\s+/g` replacement in `normalizeText`. -/
def isJsSpace (c : Char) : Bool :=
  c = ' ' || c = '\t' || c = '\n' || c = '\r' || c = '\x0b' || c = '\x0c'

/-- JS `String.prototype.trim`: drop whitespace from both ends. -/
def jsTrim (text : List Char) : List Char :=
  ((text.dropWhile isJsSpace).reverse.dropWhile isJsSpace).reverse

/-- The punctuation characters removed by `normalizeText`
    (the regex `[.,!?;:]`). -/
def isStrippedPunctuation (c : Char) : Bool :=
  c = '.' || c = ',' || c = '!' || c = '?' || c = ';' || c = ':'

lemma length_dropWhile_le (p : Char → Bool) (l : List Char) :
    (l.dropWhile p).length ≤ l.length := by
  induction l with
  | nil => simp
  | cons x xs ih =>
      by_cases h : p x
      · rw [List.dropWhile_cons_of_pos h]; simp; omega
      · rw [List.dropWhile_cons_of_neg h]

/-- Helper for the `/\s+/g → ' '` replacement: `prevSpace` records whether the
    previous character belonged to a whitespace run already emitted as `' '`. -/
def collapseWhitespaceAux : Bool → List Char → List Char
  | _, [] => []
  | prevSpace, c :: rest =>
      if isJsSpace c then
        if prevSpace then collapseWhitespaceAux true rest
        else ' ' :: collapseWhitespaceAux true rest
      else c :: collapseWhitespaceAux false rest

/-- The `/\s+/g → ' '` replacement in `normalizeText`: every maximal run of
    whitespace becomes a single space. -/
def collapseWhitespace (text : List Char) : List Char :=
  collapseWhitespaceAux false text

/-- `normalizeText(text)` (js/learning-session.js lines 366-371): lowercase,
    trim, strip `[.,!?;:]`, collapse whitespace runs to single spaces. -/
def normalizeText (text : List Char) : List Char :=
  collapseWhitespace
    ((jsTrim (text.map Char.toLower)).filter fun c => !isStrippedPunctuation c)

/-- `levenshteinDistance(str1, str2)` (js/learning-session.js lines 392-418).
    The source fills the standard edit-distance matrix
    (`matrix[0][j] = j`, `matrix[i][0] = i`,
    `matrix[i][j] = matrix[i-1][j-1]` on equal characters, else
    `1 + min` of the three neighbors); this is the same recurrence written
    recursively. -/
def levenshteinDistance : List Char → List Char → ℕ
  | [], str2 => str2.length
  | c1 :: str1, [] => (c1 :: str1).length
  | c1 :: str1, c2 :: str2 =>
      if c1 = c2 then levenshteinDistance str1 str2
      else
        1 + min (levenshteinDistance str1 str2)
              (min (levenshteinDistance (c1 :: str1) str2)
                   (levenshteinDistance str1 (c2 :: str2)))
termination_by str1 str2 => str1.length + str2.length
decreasing_by all_goals (simp only [List.length_cons]; omega)

/-- Result object of `calculateTypingAccuracy`. -/
structure TypingResult where
  accuracy : ℤ
  difficulty : String
deriving DecidableEq

/-- `calculateTypingAccuracy(userInput, correctAnswer)`
    (js/learning-session.js lines 373-390). -/
def calculateTypingAccuracy (userInput correctAnswer : List Char) : TypingResult :=
  let normalizedInput := normalizeText userInput
  let normalizedAnswer := normalizeText correctAnswer
  if normalizedInput = normalizedAnswer then
    { accuracy := 100, difficulty := "perfect" }
  else
    let distance := levenshteinDistance normalizedInput normalizedAnswer
    let maxLength := max normalizedInput.length normalizedAnswer.length
    let accuracy : ℤ :=
      max 0 (jround ((1 - (distance : ℚ) / (maxLength : ℚ)) * 100))
    if accuracy ≥ 90 then { accuracy := accuracy, difficulty := "easy" }
    else if accuracy ≥ 70 then { accuracy := accuracy, difficulty := "medium" }
    else { accuracy := accuracy, difficulty := "hard" }

/-- Claim C9: `calculateTypingAccuracy` returns difficulty `perfect` exactly
when the two inputs are equal after normalization (then the result is
`{accuracy: 100, difficulty: 'perfect'}`, including two inputs normalizing to
the empty string); for unequal normalized inputs the difficulty is `easy`
(accuracy ≥ 90), `medium` (70 ≤ accuracy < 90) or `hard` (accuracy < 70),
never `perfect`. -/
theorem typing_accuracy_perfect_iff_equal (userInput correctAnswer : List Char) :
    ((calculateTypingAccuracy userInput correctAnswer).difficulty = "perfect" ↔
      normalizeText userInput = normalizeText correctAnswer) ∧
    (normalizeText userInput = normalizeText correctAnswer →
      calculateTypingAccuracy userInput correctAnswer =
        { accuracy := 100, difficulty := "perfect" }) ∧
    (normalizeText userInput ≠ normalizeText correctAnswer →
      ((calculateTypingAccuracy userInput correctAnswer).difficulty = "easy" ∧
        90 ≤ (calculateTypingAccuracy userInput correctAnswer).accuracy) ∨
      ((calculateTypingAccuracy userInput correctAnswer).difficulty = "medium" ∧
        70 ≤ (calculateTypingAccuracy userInput correctAnswer).accuracy ∧
        (calculateTypingAccuracy userInput correctAnswer).accuracy < 90) ∨
      ((calculateTypingAccuracy userInput correctAnswer).difficulty = "hard" ∧
        (calculateTypingAccuracy userInput correctAnswer).accuracy < 70)) := by
  by_cases heq : normalizeText userInput = normalizeText correctAnswer
  · simp only [calculateTypingAccuracy]
    rw [if_pos heq]
    exact ⟨⟨fun _ => heq, fun _ => rfl⟩, fun _ => rfl, fun hne => absurd heq hne⟩
  · simp only [calculateTypingAccuracy]
    rw [if_neg heq]
    split
    · next hge =>
        refine ⟨⟨fun habs => ?_, fun habs => absurd habs heq⟩,
          fun habs => absurd habs heq, fun _ => Or.inl ⟨rfl, hge⟩⟩
        simp at habs
    · next hlt =>
        split
        · next hge70 =>
            refine ⟨⟨fun habs => ?_, fun habs => absurd habs heq⟩,
              fun habs => absurd habs heq,
              fun _ => Or.inr (Or.inl ⟨rfl, hge70, lt_of_not_le hlt⟩)⟩
            simp at habs
        · next hlt70 =>
            refine ⟨⟨fun habs => ?_, fun habs => absurd habs heq⟩,
              fun habs => absurd habs heq,
              fun _ => Or.inr (Or.inr ⟨rfl, lt_of_not_le hlt70⟩)⟩
            simp at habs

/-- Witness for C9: equal inputs after normalization (`"Cat "` vs `"cat"`)
give a perfect score; the iff transports it. -/
theorem typing_accuracy_perfect_iff_equal_witness :
    calculateTypingAccuracy ['C', 'a', 't', ' '] ['c', 'a', 't'] =
      { accuracy := 100, difficulty := "perfect" } :=
  (typing_accuracy_perfect_iff_equal ['C', 'a', 't', ' '] ['c', 'a', 't']).2.1
    (by decide)

/-- The three-assignment swap inside `secureShuffle`
    (js/learning-session.js lines 41-43): `tmp = a[i]; a[i] = a[j]; a[j] = tmp`.
    In the loop both indices are always in bounds; out-of-bounds indices
    (unreachable there) leave the list unchanged. -/
def listSwap (array : List α) (i j : ℕ) : List α :=
  if h : i < array.length ∧ j < array.length then
    (array.set i (array.get ⟨j, h.2⟩)).set j (array.get ⟨i, h.1⟩)
  else array

/-- `getSecureRandomInt(maxExclusive)` (js/learning-session.js lines 21-35)
    draws 32-bit values, rejection-samples away the modulo bias, and returns
    `value % maxExclusive`.  An arbitrary outcome of the random source is
    modelled by the accepted draw `value`; the returned index is
    `value % maxExclusive`, which ranges over exactly `[0, maxExclusive)`. -/
def getSecureRandomInt (value : ℕ) (maxExclusive : ℕ) : ℕ :=
  value % maxExclusive

/-- The Fisher-Yates loop of `secureShuffle`:
    `for (let i = array.length - 1; i > 0; i--)` with
    `j = getSecureRandomInt(i + 1)`.  `rand i` is the accepted random draw
    used at loop index `i`. -/
def shuffleLoop (rand : ℕ → ℕ) : ℕ → List α → List α
  | 0, array => array
  | Nat.succ k, array =>
      shuffleLoop rand k
        (listSwap array (k + 1) (getSecureRandomInt (rand (k + 1)) (k + 2)))

/-- `secureShuffle(inputArray)` (js/learning-session.js lines 37-46): copy the
    input (`[...inputArray]` — the input array itself is never written) and run
    the Fisher-Yates loop from index `length - 1` down to `1`. -/
def secureShuffle (rand : ℕ → ℕ) (inputArray : List α) : List α :=
  shuffleLoop rand (inputArray.length - 1) inputArray

lemma count_set_add {α : Type u} [DecidableEq α] (l : List α) (n : ℕ) (b : α)
    (hn : n < l.length) (a : α) :
    (l.set n b).count a + (if l.get ⟨n, hn⟩ = a then 1 else 0) =
    l.count a + (if b = a then 1 else 0) := by
  induction l generalizing n with
  | nil => simp at hn
  | cons x xs ih =>
      cases n with
      | zero =>
          simp only [List.set_cons_zero, List.get, List.count_cons]
          by_cases hxa : x = a <;> by_cases hba : b = a <;>
            simp [hxa, hba]
      | succ m =>
          have hm : m < xs.length := by
            simpa [List.length_cons, Nat.succ_lt_succ_iff] using hn
          have h := ih m hm
          simp only [List.get_eq_getElem, List.getElem_cons_succ] at h ⊢
          simp only [List.set_cons_succ, List.count_cons]
          by_cases hxa : x = a <;> simp [hxa] <;> omega

lemma listSwap_perm {α : Type u} (l : List α) (i j : ℕ) :
    (listSwap l i j).Perm l := by
  classical
  unfold listSwap
  split
  · next h =>
      rw [List.perm_iff_count]
      intro a
      have hlen : j < (l.set i (l.get ⟨j, h.2⟩)).length := by
        simpa using h.2
      have hget : (l.set i (l.get ⟨j, h.2⟩)).get ⟨j, hlen⟩ = l.get ⟨j, h.2⟩ := by
        by_cases hij : i = j
        · subst hij
          simp [List.get_eq_getElem, List.getElem_set_self]
        · simp [List.get_eq_getElem, List.getElem_set_ne hij]
      have h2 := count_set_add (l.set i (l.get ⟨j, h.2⟩)) j (l.get ⟨i, h.1⟩) hlen a
      have h1 := count_set_add l i (l.get ⟨j, h.2⟩) h.1 a
      rw [hget] at h2
      by_cases hja : l.get ⟨j, h.2⟩ = a <;> by_cases hia : l.get ⟨i, h.1⟩ = a <;>
        simp [hja, hia] at h1 h2 ⊢ <;> omega
  · exact List.Perm.refl l

lemma shuffleLoop_perm {α : Type u} (rand : ℕ → ℕ) :
    ∀ (n : ℕ) (l : List α), (shuffleLoop rand n l).Perm l := by
  intro n
  induction n with
  | zero => intro l; exact List.Perm.refl l
  | succ k ih =>
      intro l
      exact (ih _).trans (listSwap_perm l (k + 1) _)

/-- Claim C10: for every input list and every outcome of the random source,
`secureShuffle` returns a permutation of its input — same length and same
multiset of elements, so building a session queue never adds, drops or
duplicates words.  (The source copies the input with `[...inputArray]` before
swapping, so the input array itself is left untouched; the model is pure, and
the permutation statement is about the returned list.) -/
theorem secureShuffle_permutation {α : Type u} (rand : ℕ → ℕ)
    (inputArray : List α) :
    (secureShuffle rand inputArray).Perm inputArray :=
  shuffleLoop_perm rand (inputArray.length - 1) inputArray

/-- The per-word object literal built by `createExportData`
    (js/import-export.js lines 18-33).  Exactly the thirteen listed properties
    are copied; `lastExerciseType`, `lastExerciseDate`,
    `sessionExerciseTypes` and `currentExerciseType` are NOT copied — they are
    absent from the exported object, modelled as `none` / `[]`. -/
def exportWordEntry (word : Word) : Word :=
  { id := word.id
    english := word.english
    russian := word.russian
    definition := word.definition
    examples := word.examples
    phonetic := word.phonetic
    synonyms := word.synonyms
    easeFactor := word.easeFactor
    repetition := word.repetition
    nextReview := word.nextReview
    reviewHistory := word.reviewHistory
    createdAt := word.createdAt
    addedDate := word.addedDate
    lastExerciseType := none
    lastExerciseDate := none
    sessionExerciseTypes := []
    currentExerciseType := none }

/-- The value returned by `createExportData`
    (js/import-export.js lines 35-40). -/
structure ExportData where
  vocabulary : List Word
  exportDate : ℤ
  appVersion : String
  totalWords : ℕ
deriving DecidableEq

/-- `createExportData(vocabularyData)` (js/import-export.js lines 6-41) on an
    explicitly supplied vocabulary; `now` stands for the `new Date()` used as
    `exportDate`. -/
def createExportData (vocabularyData : List Word) (now : ℤ) : ExportData :=
  { vocabulary := vocabularyData.map exportWordEntry
    exportDate := now
    appVersion := "1.0"
    totalWords := (vocabularyData.map exportWordEntry).length }

/-- The value returned by `validateAndProcessImportData`
    (js/import-export.js lines 109-115). -/
structure ImportResult where
  vocabulary : List Word
  totalWords : ℕ
  exportDate : ℤ
  appVersion : String
  valid : Bool
deriving DecidableEq

/-- The per-word validation of `validateAndProcessImportData`
    (js/import-export.js lines 88-107).  The `typeof` checks on `easeFactor`,
    `repetition` and `Array.isArray(reviewHistory)` hold by construction in
    the typed model; the JS truthiness checks `!word.id`, `!word.english`,
    `!word.russian` reject empty strings. -/
def validateWord (index : ℕ) (word : Word) : Except String Unit :=
  if word.id = "" then
    Except.error ("Word " ++ toString (index + 1) ++ ": Missing or invalid id")
  else if word.english = "" then
    Except.error ("Word " ++ toString (index + 1) ++
      ": Missing or invalid english field")
  else if word.russian = "" then
    Except.error ("Word " ++ toString (index + 1) ++
      ": Missing or invalid russian field")
  else Except.ok ()

def validateWords : ℕ → List Word → Except String Unit
  | _, [] => Except.ok ()
  | index, word :: rest =>
      match validateWord index word with
      | Except.error e => Except.error e
      | Except.ok _ => validateWords (index + 1) rest

/-- `validateAndProcessImportData(dataToImport)` (js/import-export.js lines
    78-116): validate every entry (all-or-nothing, throwing on the first
    offender) and return the imported vocabulary unchanged together with the
    pass-through metadata.  The structural `Array.isArray(vocabulary)` check
    holds by typing. -/
def validateAndProcessImportData (dataToImport : ExportData) :
    Except String ImportResult :=
  match validateWords 0 dataToImport.vocabulary with
  | Except.error e => Except.error e
  | Except.ok _ =>
      Except.ok
        { vocabulary := dataToImport.vocabulary
          totalWords := dataToImport.totalWords
          exportDate := dataToImport.exportDate
          appVersion := dataToImport.appVersion
          valid := true }

/-- Claim C4 counterexample: a valid one-word vocabulary whose word carries
`lastExerciseType = 'reverse'` and `lastExerciseDate = 100` does NOT round-trip
through export/import: `createExportData` copies only thirteen properties, so
both fields are absent from the exported entry and the imported vocabulary is
not deep-equal to the original. -/
theorem export_import_drops_lastExercise :
    validateAndProcessImportData
        (createExportData
          [{ newWord "w1" "cat" "kot" "" "" [] [] "t0" with
              lastExerciseType := some "reverse",
              lastExerciseDate := some 100 }] 0) =
      Except.ok
        { vocabulary :=
            [exportWordEntry
              { newWord "w1" "cat" "kot" "" "" [] [] "t0" with
                  lastExerciseType := some "reverse",
                  lastExerciseDate := some 100 }]
          totalWords := 1, exportDate := 0, appVersion := "1.0"
          valid := true } ∧
    [exportWordEntry
        { newWord "w1" "cat" "kot" "" "" [] [] "t0" with
            lastExerciseType := some "reverse",
            lastExerciseDate := some 100 }] ≠
      [{ newWord "w1" "cat" "kot" "" "" [] [] "t0" with
          lastExerciseType := some "reverse",
          lastExerciseDate := some 100 }] := by
  constructor
  · rfl
  · intro habs
    have h := List.head_eq_of_cons_eq habs
    have : (exportWordEntry
        { newWord "w1" "cat" "kot" "" "" [] [] "t0" with
            lastExerciseType := some "reverse",
            lastExerciseDate := some 100 }).lastExerciseType =
        some "reverse" := by rw [h]
    simp [exportWordEntry] at this

lemma validateWords_ok (vocabulary : List Word)
    (h : ∀ word ∈ vocabulary, word.id ≠ "" ∧ word.english ≠ "" ∧
      word.russian ≠ "") :
    ∀ index : ℕ, validateWords index vocabulary = Except.ok () := by
  induction vocabulary with
  | nil => intro index; rfl
  | cons word rest ih =>
      intro index
      have hw := h word (List.mem_cons_self word rest)
      have hrest : ∀ w ∈ rest, w.id ≠ "" ∧ w.english ≠ "" ∧ w.russian ≠ "" :=
        fun w hw2 => h w (List.mem_cons_of_mem word hw2)
      rw [validateWords, validateWord]
      rw [if_neg hw.1, if_neg hw.2.1, if_neg hw.2.2]
      exact ih hrest (index + 1)

/-- Claim C4 (amended): for a valid vocabulary (non-empty `id`, `english` and
`russian` on every word), the import of the export succeeds and returns
`V.map exportWordEntry`: the thirteen exported fields — all §3 content fields
plus `easeFactor`, `repetition`, `nextReview` and the nested `reviewHistory` —
are preserved exactly, but `lastExerciseType` and `lastExerciseDate` are
dropped by `createExportData` (absent from every exported entry), so the
round trip is NOT deep-equal to `V` whenever either field is set. -/
theorem export_import_round_trip (V : List Word) (now : ℤ)
    (h : ∀ word ∈ V, word.id ≠ "" ∧ word.english ≠ "" ∧ word.russian ≠ "") :
    validateAndProcessImportData (createExportData V now) =
      Except.ok
        { vocabulary := V.map exportWordEntry
          totalWords := (V.map exportWordEntry).length
          exportDate := now, appVersion := "1.0", valid := true } ∧
    ∀ word ∈ V,
      (exportWordEntry word).id = word.id ∧
      (exportWordEntry word).english = word.english ∧
      (exportWordEntry word).russian = word.russian ∧
      (exportWordEntry word).definition = word.definition ∧
      (exportWordEntry word).examples = word.examples ∧
      (exportWordEntry word).phonetic = word.phonetic ∧
      (exportWordEntry word).synonyms = word.synonyms ∧
      (exportWordEntry word).easeFactor = word.easeFactor ∧
      (exportWordEntry word).repetition = word.repetition ∧
      (exportWordEntry word).nextReview = word.nextReview ∧
      (exportWordEntry word).reviewHistory = word.reviewHistory ∧
      (exportWordEntry word).createdAt = word.createdAt ∧
      (exportWordEntry word).addedDate = word.addedDate ∧
      (exportWordEntry word).lastExerciseType = none ∧
      (exportWordEntry word).lastExerciseDate = none := by
  constructor
  · have hmap : ∀ w ∈ V.map exportWordEntry,
        w.id ≠ "" ∧ w.english ≠ "" ∧ w.russian ≠ "" := by
      intro w hw
      rcases List.mem_map.mp hw with ⟨word, hmem, hrfl⟩
      subst hrfl
      exact h word hmem
    rw [validateAndProcessImportData]
    rw [show (createExportData V now).vocabulary = V.map exportWordEntry from rfl]
    rw [validateWords_ok (V.map exportWordEntry) hmap 0]
    rfl
  · intro word _
    exact ⟨rfl, rfl, rfl, rfl, rfl, rfl, rfl, rfl, rfl, rfl, rfl, rfl, rfl,
      rfl, rfl⟩

/-- Witness for the amended C4 on a concrete one-word vocabulary. -/
theorem export_import_round_trip_witness :
    validateAndProcessImportData
        (createExportData [newWord "w1" "cat" "kot" "" "" [] [] "t0"] 0) =
      Except.ok
        { vocabulary := [newWord "w1" "cat" "kot" "" "" [] [] "t0"].map
            exportWordEntry
          totalWords :=
            ([newWord "w1" "cat" "kot" "" "" [] [] "t0"].map
              exportWordEntry).length
          exportDate := 0, appVersion := "1.0", valid := true } :=
  (export_import_round_trip [newWord "w1" "cat" "kot" "" "" [] [] "t0"] 0
    (by intro word hw; simp at hw; subst hw; refine ⟨?_, ?_, ?_⟩ <;>
      simp [newWord])).1

end SmartVocab
